import Mathlib

/-!
Shallow embedding of the `appherramientas` repository: the two data hooks
(`useTools` in `src/hooks/useTools.ts`, `useMovements`) and the auth/client
shim (`signIn` / `signOut`).  The remote backend (a hosted Postgres exposed
through a table API) is modelled as an explicit database value; every remote
call consumes one entry of a failure schedule (`true` = that call fails) and
is recorded in a trace, so that claims about which calls an operation issues,
and about partial failure, can be stated.
-/

namespace App

/-- Lexicographic comparison of char lists by code point (model of the
backend's text ordering used by `order(...)`). -/
def charListLe : List Char → List Char → Bool
  | [], _ => true
  | _ :: _, [] => false
  | a :: as, b :: bs =>
    if a.toNat < b.toNat then true
    else if b.toNat < a.toNat then false
    else charListLe as bs

/-- Lexicographic string comparison. -/
def strLe (a b : String) : Bool := charListLe a.data b.data

/-- Insert into a list sorted by `le`. -/
def insertBy (le : α → α → Bool) (a : α) : List α → List α
  | [] => [a]
  | b :: bs => if le a b then a :: b :: bs else b :: insertBy le a bs

/-- Insertion sort by a boolean comparison (model of the backend's
`order(...)` clause). -/
def sortBy (le : α → α → Bool) : List α → List α
  | [] => []
  | a :: as => insertBy le a (sortBy le as)

/-- Modelled from the spec: the `Tool` entity of `../types` (the types file is
not among the sources); fields reconstructed from their uses in the hooks. -/
structure Tool where
  id : String
  name : String
  stock : Int
  available_stock : Int
  created_at : String
  updated_at : String
deriving DecidableEq

/-- Modelled from the spec: the `Movement` entity of `../types`; fields
reconstructed from their uses in the hooks. -/
structure Movement where
  id : String
  tool_id : String
  tool_name : String
  type : String
  quantity : Int
  user_name : String
  area : String
  notes : Option String
  checkout_date : String
  checkin_date : Option String
  status : String
  created_at : String
deriving DecidableEq

/-- Modelled from the spec: the `ToolUsage` entity of `../types`; fields are
exactly those built in `fetchToolsInUse` (useTools.ts:34-42). -/
structure ToolUsage where
  tool_id : String
  tool_name : String
  user_name : String
  area : String
  quantity : Int
  checkout_date : String
  movement_id : String
deriving DecidableEq

/-- `Omit<Tool, 'id' | 'created_at' | 'updated_at'>`: the argument of
`addTool` (useTools.ts:50). -/
structure ToolInput where
  name : String
  stock : Int
  available_stock : Int
deriving DecidableEq

/-- `Partial<Tool>`: the `updates` argument of `updateTool` (useTools.ts:66).
The `updated_at` field may be present in the patch but is always overwritten
by the client clock in `updateTool` (useTools.ts:70). -/
structure ToolPatch where
  id : Option String := none
  name : Option String := none
  stock : Option Int := none
  available_stock : Option Int := none
  created_at : Option String := none
  updated_at : Option String := none
deriving DecidableEq

/-- The row payload of an insert into `movements` (the object literals at
useMovements createCheckout and createCheckin). -/
structure MovementInsert where
  tool_id : String
  tool_name : String
  type : String
  quantity : Int
  user_name : String
  area : String
  notes : Option String
  checkout_date : String
  checkin_date : Option String
  status : String
deriving DecidableEq

/-- Error values the operations can return: the `new Error(...)` literals of
the source, plus an opaque backend error for a failed remote call. -/
inductive Err where
  | notConfigured
  | stockInsuficiente
  | movimientoNoEncontrado
  | backend
deriving DecidableEq

/-- The `{ data, error }` result shape returned by the mutating operations. -/
structure DataRes (α : Type) where
  data : Option α
  error : Option Err
deriving DecidableEq

/-- One remote call, with the payload the client sends (the trace alphabet). -/
inductive Call where
  | selTools
  | selActiveMovements
  | selMovementsAll
  | selToolStock (id : String)
  | selMovement (id : String)
  | insTool (p : ToolInput)
  | updTool (id : String) (p : ToolPatch) (updated_at : String)
  | delTool (id : String)
  | insMovement (p : MovementInsert)
  | updMovementReturned (id : String) (checkin_date : String)
  | updToolStock (id : String) (v : Int)
  | authSignInC (email password : String)
  | authSignOutC
deriving DecidableEq

/-- Whether a call writes to the backend (insert/update/delete). -/
def Call.isWrite : Call → Bool
  | .insTool _ => true
  | .updTool _ _ _ => true
  | .delTool _ => true
  | .insMovement _ => true
  | .updMovementReturned _ _ => true
  | .updToolStock _ _ => true
  | _ => false

/-- The remote database: the `tools` and `movements` tables, plus a counter
generating fresh row ids. -/
structure DB where
  tools : List Tool
  movements : List Movement
  nextId : Nat
deriving DecidableEq

/-- Backend-generated id for the next inserted row. -/
def freshId (db : DB) : String := toString db.nextId

/-- Backend semantics of `from('tools').select('*').order('name')`
(useTools.ts:12-15). -/
def toolsQuery (db : DB) : List Tool :=
  sortBy (fun a b => strLe a.name b.name) db.tools

/-- Backend semantics of `from('movements').select('*').eq('status','active')
.order('checkout_date', { ascending: false })` (useTools.ts:26-30). -/
def activeMovementsQuery (db : DB) : List Movement :=
  sortBy (fun a b => strLe b.checkout_date a.checkout_date)
    (db.movements.filter (fun m => m.status == "active"))

/-- Backend semantics of `from('movements').select('*')
.order('created_at', { ascending: false })` (useMovements fetchMovements). -/
def allMovementsQuery (db : DB) : List Movement :=
  sortBy (fun a b => strLe b.created_at a.created_at) db.movements

/-- The world a sequence of remote calls threads: the database, the failure
schedule (`fl n = true` means the `n`-th call of the run fails), the index of
the next call, and the trace of calls issued so far. -/
structure W where
  db : DB
  fl : Nat → Bool
  ix : Nat
  tr : List Call

/-- Whether the next remote call fails. -/
def nextFails (w : W) : Bool := w.fl w.ix

/-- Advance past one remote call and record it. -/
def bump (c : Call) (w : W) : W :=
  { w with ix := w.ix + 1, tr := w.tr ++ [c] }

/-- First element of `l` whose `key` is `id` (semantics of `.eq('id', id)
.single()` on a table). -/
def lookupBy (key : α → String) : List α → String → Option α
  | [], _ => none
  | a :: as, id => if key a == id then some a else lookupBy key as id

/-- The tool row of `db` with the given id, if any (`.eq('id', id).single()`). -/
def toolById (db : DB) (id : String) : Option Tool :=
  lookupBy Tool.id db.tools id

/-- The movement row of `db` with the given id, if any. -/
def movementById (db : DB) (id : String) : Option Movement :=
  lookupBy Movement.id db.movements id

/-- `from('tools').select('*').order('name')`: `none` when the call fails. -/
def callSelTools (w : W) : Option (List Tool) × W :=
  if nextFails w then (none, bump .selTools w)
  else (some (toolsQuery w.db), bump .selTools w)

/-- `from('movements').select('*').eq('status','active').order(...)`. -/
def callSelActiveMovements (w : W) : Option (List Movement) × W :=
  if nextFails w then (none, bump .selActiveMovements w)
  else (some (activeMovementsQuery w.db), bump .selActiveMovements w)

/-- `from('movements').select('*').order('created_at', ...)`. -/
def callSelMovementsAll (w : W) : Option (List Movement) × W :=
  if nextFails w then (none, bump .selMovementsAll w)
  else (some (allMovementsQuery w.db), bump .selMovementsAll w)

/-- `from('tools').select('available_stock').eq('id', toolId).single()`:
`none` when the call fails or no row matches (`.single()` errors and the
caller destructures `data` only). -/
def callSelToolStock (id : String) (w : W) : Option Int × W :=
  if nextFails w then (none, bump (.selToolStock id) w)
  else ((toolById w.db id).map Tool.available_stock, bump (.selToolStock id) w)

/-- `from('movements').select('*').eq('id', movementId).single()`. -/
def callSelMovement (id : String) (w : W) : Option Movement × W :=
  if nextFails w then (none, bump (.selMovement id) w)
  else (movementById w.db id, bump (.selMovement id) w)

/-- The row the backend builds for `insert` into `tools`: generated id and
timestamps, payload columns as sent (useTools.ts:52-56). -/
def mkToolRow (now : String) (db : DB) (p : ToolInput) : Tool :=
  { id := freshId db, name := p.name, stock := p.stock,
    available_stock := p.available_stock, created_at := now, updated_at := now }

/-- `from('tools').insert([p]).select().single()`. -/
def callInsTool (now : String) (p : ToolInput) (w : W) : Except Err Tool × W :=
  if nextFails w then (.error .backend, bump (.insTool p) w)
  else
    let row := mkToolRow now w.db p
    (.ok row,
     { bump (.insTool p) w with
         db := { w.db with tools := w.db.tools ++ [row],
                           nextId := w.db.nextId + 1 } })

/-- `{ ...updates, updated_at: now }` applied to a row: present patch fields
replace the row's, and `updated_at` is always set to the client clock
(useTools.ts:70). -/
def applyToolPatch (now : String) (p : ToolPatch) (t : Tool) : Tool :=
  { id := p.id.getD t.id, name := p.name.getD t.name,
    stock := p.stock.getD t.stock,
    available_stock := p.available_stock.getD t.available_stock,
    created_at := p.created_at.getD t.created_at, updated_at := now }

/-- `from('tools').update({...updates, updated_at}).eq('id', id).select()
.single()`: errors when the call fails or no row matches. -/
def callUpdTool (id : String) (p : ToolPatch) (now : String) (w : W) :
    Except Err Tool × W :=
  if nextFails w then (.error .backend, bump (.updTool id p now) w)
  else
    match toolById w.db id with
    | none => (.error .backend, bump (.updTool id p now) w)
    | some t =>
      (.ok (applyToolPatch now p t),
       { bump (.updTool id p now) w with
           db := { w.db with
                     tools := w.db.tools.map (fun x =>
                       if x.id == id then applyToolPatch now p x else x) } })

/-- `from('tools').delete().eq('id', id)`. -/
def callDelTool (id : String) (w : W) : Option Err × W :=
  if nextFails w then (some .backend, bump (.delTool id) w)
  else
    (none,
     { bump (.delTool id) w with
         db := { w.db with tools := w.db.tools.filter (fun t => t.id != id) } })

/-- The row the backend builds for `insert` into `movements`. -/
def mkMovementRow (now : String) (db : DB) (p : MovementInsert) : Movement :=
  { id := freshId db, tool_id := p.tool_id, tool_name := p.tool_name,
    type := p.type, quantity := p.quantity, user_name := p.user_name,
    area := p.area, notes := p.notes, checkout_date := p.checkout_date,
    checkin_date := p.checkin_date, status := p.status, created_at := now }

/-- `from('movements').insert([p]).select().single()`. -/
def callInsMovement (now : String) (p : MovementInsert) (w : W) :
    Except Err Movement × W :=
  if nextFails w then (.error .backend, bump (.insMovement p) w)
  else
    let row := mkMovementRow now w.db p
    (.ok row,
     { bump (.insMovement p) w with
         db := { w.db with movements := w.db.movements ++ [row],
                           nextId := w.db.nextId + 1 } })

/-- `from('movements').update({ status: 'returned', checkin_date: now })
.eq('id', id)` (its result is ignored by the caller). -/
def callUpdMovementReturned (id : String) (now : String) (w : W) :
    Option Err × W :=
  if nextFails w then (some .backend, bump (.updMovementReturned id now) w)
  else
    (none,
     { bump (.updMovementReturned id now) w with
         db := { w.db with
                   movements := w.db.movements.map (fun m =>
                     if m.id == id then
                       { m with status := "returned", checkin_date := some now }
                     else m) } })

/-- `from('tools').update({ available_stock: v }).eq('id', id)` (its result
is ignored by the caller). -/
def callUpdToolStock (id : String) (v : Int) (w : W) : Option Err × W :=
  if nextFails w then (some .backend, bump (.updToolStock id v) w)
  else
    (none,
     { bump (.updToolStock id v) w with
         db := { w.db with
                   tools := w.db.tools.map (fun t =>
                     if t.id == id then { t with available_stock := v }
                     else t) } })

/-- Local state of the `useTools` hook (useTools.ts:6-8). -/
structure ToolsState where
  tools : List Tool
  toolsInUse : List ToolUsage
  loading : Bool
deriving DecidableEq

/-- Local state of the `useMovements` hook. -/
structure MovState where
  movements : List Movement
  loading : Bool
deriving DecidableEq

/-- `fetchTools` (useTools.ts:10-22): select, store rows; on error only log,
leaving the state unchanged. -/
def fetchTools (s : ToolsState) (w : W) : ToolsState × W :=
  match callSelTools w with
  | (some rows, w) => ({ s with tools := rows }, w)
  | (none, w) => (s, w)

/-- The projection applied to each active movement row (useTools.ts:34-42). -/
def toUsage (m : Movement) : ToolUsage :=
  { tool_id := m.tool_id, tool_name := m.tool_name, user_name := m.user_name,
    area := m.area, quantity := m.quantity, checkout_date := m.checkout_date,
    movement_id := m.id }

/-- `fetchToolsInUse` (useTools.ts:24-48): select active movements, map to
usage records; on error only log. -/
def fetchToolsInUse (s : ToolsState) (w : W) : ToolsState × W :=
  match callSelActiveMovements w with
  | (some rows, w) => ({ s with toolsInUse := rows.map toUsage }, w)
  | (none, w) => (s, w)

/-- The insert payload of `addTool`: `{ ...tool, available_stock: tool.stock }`
(useTools.ts:54). -/
def addToolPayload (t : ToolInput) : ToolInput :=
  { t with available_stock := t.stock }

/-- `addTool` (useTools.ts:50-64): insert, then re-fetch tools, then return
the inserted row; on error return `{ data: null, error }`. -/
def addTool (now : String) (t : ToolInput) (s : ToolsState) (w : W) :
    DataRes Tool × ToolsState × W :=
  match callInsTool now (addToolPayload t) w with
  | (.error e, w) => ({ data := none, error := some e }, s, w)
  | (.ok row, w) =>
    let (s, w) := fetchTools s w
    ({ data := some row, error := none }, s, w)

/-- `updateTool` (useTools.ts:66-81). -/
def updateTool (now : String) (id : String) (p : ToolPatch) (s : ToolsState)
    (w : W) : DataRes Tool × ToolsState × W :=
  match callUpdTool id p now w with
  | (.error e, w) => ({ data := none, error := some e }, s, w)
  | (.ok row, w) =>
    let (s, w) := fetchTools s w
    ({ data := some row, error := none }, s, w)

/-- `deleteTool` (useTools.ts:83-96): returns only `{ error }`. -/
def deleteTool (id : String) (s : ToolsState) (w : W) :
    Option Err × ToolsState × W :=
  match callDelTool id w with
  | (some e, w) => (some e, s, w)
  | (none, w) =>
    let (s, w) := fetchTools s w
    (none, s, w)

/-- The two subscriptions `useTools` registers (useTools.ts:108-121),
identified by channel and table. -/
structure ToolsSub where
  channel : String
  table : String
deriving DecidableEq

/-- `unsubscribe()` on one subscription: removes its first registration. -/
def removeSub (s : ToolsSub) : List ToolsSub → List ToolsSub
  | [] => []
  | r :: rs => if r = s then rs else r :: removeSub s rs

/-- The mount effect of `useTools` (useTools.ts:98-127): set loading, fetch
both lists, clear loading, and register the two realtime subscriptions. -/
def useToolsMount (s : ToolsState) (w : W) (reg : List ToolsSub) :
    ToolsState × W × List ToolsSub :=
  let s := { s with loading := true }
  let (s, w) := fetchTools s w
  let (s, w) := fetchToolsInUse s w
  ({ s with loading := false }, w,
   reg ++ [⟨"tools", "tools"⟩, ⟨"movements", "movements"⟩])

/-- The cleanup of `useTools` (useTools.ts:123-126): unsubscribe both. -/
def useToolsCleanup (reg : List ToolsSub) : List ToolsSub :=
  removeSub ⟨"movements", "movements"⟩ (removeSub ⟨"tools", "tools"⟩ reg)

/-- The handler registered on the `tools` channel (useTools.ts:110-112):
re-fetch tools only. -/
def onToolsChange (s : ToolsState) (w : W) : ToolsState × W :=
  fetchTools s w

/-- The handler registered on the `movements` channel (useTools.ts:117-120):
re-fetch tools in use, then tools. -/
def onToolsMovementsChange (s : ToolsState) (w : W) : ToolsState × W :=
  let (s, w) := fetchToolsInUse s w
  fetchTools s w

/-- `fetchMovements` (useMovements, part_000:9-30): when unconfigured, store
the empty list; otherwise select all movements; on error store the empty
list; in every case clear `loading`. -/
def fetchMovements (cfg : Bool) (s : MovState) (w : W) : MovState × W :=
  if !cfg then ({ movements := [], loading := false }, w)
  else
    match callSelMovementsAll w with
    | (some rows, w) => ({ movements := rows, loading := false }, w)
    | (none, w) => ({ movements := [], loading := false }, w)

/-- The insert payload of `createCheckout` (part_000:58-68). -/
def checkoutPayload (now toolId toolName : String) (quantity : Int)
    (userName area : String) (notes : Option String) : MovementInsert :=
  { tool_id := toolId, tool_name := toolName, type := "checkout",
    quantity := quantity, user_name := userName, area := area, notes := notes,
    checkout_date := now, checkin_date := none, status := "active" }

/-- `createCheckout` (part_000:32-85): guard on configuration, fetch the
tool's stock, reject when missing or insufficient, insert the active
movement, write the decremented stock (result ignored), re-fetch movements,
return the inserted row. -/
def createCheckout (cfg : Bool) (now toolId toolName : String)
    (quantity : Int) (userName area : String) (notes : Option String)
    (s : MovState) (w : W) : DataRes Movement × MovState × W :=
  if !cfg then ({ data := none, error := some .notConfigured }, s, w)
  else
    match callSelToolStock toolId w with
    | (none, w) => ({ data := none, error := some .stockInsuficiente }, s, w)
    | (some avail, w) =>
      if avail < quantity then
        ({ data := none, error := some .stockInsuficiente }, s, w)
      else
        match callInsMovement now
            (checkoutPayload now toolId toolName quantity userName area notes)
            w with
        | (.error e, w) => ({ data := none, error := some e }, s, w)
        | (.ok row, w) =>
          let (_, w) := callUpdToolStock toolId (avail - quantity) w
          let (s, w) := fetchMovements cfg s w
          ({ data := some row, error := none }, s, w)

/-- The insert payload of `createCheckin` (part_000:114-125): copies
tool_id, tool_name, area and checkout_date from the original movement. -/
def checkinPayload (now : String) (m : Movement) (returnQuantity : Int)
    (userName : String) (notes : Option String) : MovementInsert :=
  { tool_id := m.tool_id, tool_name := m.tool_name, type := "checkin",
    quantity := returnQuantity, user_name := userName, area := m.area,
    notes := notes, checkout_date := m.checkout_date,
    checkin_date := some now, status := "returned" }

/-- `createCheckin` (part_000:87-150): fetch the original movement, mark it
returned (result ignored), insert the checkin movement, fetch the tool's
stock and, when found, write the incremented stock (result ignored),
re-fetch movements, return the inserted row. -/
def createCheckin (cfg : Bool) (now movementId : String)
    (returnQuantity : Int) (userName : String) (notes : Option String)
    (s : MovState) (w : W) : DataRes Movement × MovState × W :=
  if !cfg then ({ data := none, error := some .notConfigured }, s, w)
  else
    match callSelMovement movementId w with
    | (none, w) =>
      ({ data := none, error := some .movimientoNoEncontrado }, s, w)
    | (some m, w) =>
      let (_, w) := callUpdMovementReturned movementId now w
      match callInsMovement now
          (checkinPayload now m returnQuantity userName notes) w with
      | (.error e, w) => ({ data := none, error := some e }, s, w)
      | (.ok row, w) =>
        let (stock?, w) := callSelToolStock m.tool_id w
        let w :=
          match stock? with
          | some avail =>
            (callUpdToolStock m.tool_id (avail + returnQuantity) w).2
          | none => w
        let (s, w) := fetchMovements cfg s w
        ({ data := some row, error := none }, s, w)

/-- The single subscription `useMovements` registers; mount (part_000:152-170)
fetches, then subscribes only when configured. -/
def useMovementsMount (cfg : Bool) (s : MovState) (w : W)
    (reg : List ToolsSub) : MovState × W × List ToolsSub :=
  let (s, w) := fetchMovements cfg s w
  if !cfg then (s, w, reg)
  else (s, w, reg ++ [⟨"movements", "movements"⟩])

/-- The handler registered by `useMovements` (part_000:160-165). -/
def onMovementsChange (cfg : Bool) (s : MovState) (w : W) : MovState × W :=
  fetchMovements cfg s w

/-- The cleanup of `useMovements` (part_000:167-169). -/
def useMovementsCleanup (reg : List ToolsSub) : List ToolsSub :=
  removeSub ⟨"movements", "movements"⟩ reg

/-- The `{ data, error }` shape returned by the auth backend for
`signInWithPassword`; the session payload is opaque here. -/
structure AuthRes where
  data : Option String
  error : Option Err
deriving DecidableEq

/-- `signIn` (part_001:11-20): guard on configuration, then forward email and
password to `auth.signInWithPassword` and return its data and error.  The
backend's behaviour is an arbitrary oracle `auth`. -/
def signIn (cfg : Bool) (auth : String → String → AuthRes)
    (email password : String) (w : W) : AuthRes × W :=
  if !cfg then ({ data := none, error := some .notConfigured }, w)
  else (auth email password, { w with tr := w.tr ++ [.authSignInC email password] })

/-- `signOut` (part_001:22-28): guard on configuration, then forward to
`auth.signOut` and return its error.  The backend's behaviour is an
arbitrary oracle `authOut`. -/
def signOut (cfg : Bool) (authOut : Option Err) (w : W) :
    Option Err × W :=
  if !cfg then (some .notConfigured, w)
  else (authOut, { w with tr := w.tr ++ [.authSignOutC] })

/-- The write calls (insert/update/delete) of a trace. -/
def writesOf (tr : List Call) : List Call := tr.filter Call.isWrite

/-- The passthrough property the spec asserts of every operation,
instantiated at `createCheckout`: an operation that computes no new value
from previously fetched data issues write payloads that depend only on its
own inputs, never on the database contents it fetched.  Stated for runs
with no injected failures and an empty starting trace. -/
def checkoutWritesIndependentOfDB : Prop :=
  ∀ (now toolId toolName userName area : String) (notes : Option String)
    (q : Int) (s1 s2 : MovState) (db1 db2 : DB),
    writesOf (createCheckout true now toolId toolName q userName area notes
      s1 ⟨db1, fun _ => false, 0, []⟩).2.2.tr =
    writesOf (createCheckout true now toolId toolName q userName area notes
      s2 ⟨db2, fun _ => false, 0, []⟩).2.2.tr

/-- Concrete sample rows used to evaluate the theorems on closed inputs. -/
def sampleTool : Tool :=
  { id := "t1", name := "Taladro", stock := 5, available_stock := 5,
    created_at := "d0", updated_at := "d0" }

def sampleMovement : Movement :=
  { id := "m1", tool_id := "t1", tool_name := "Taladro", type := "checkout",
    quantity := 2, user_name := "ana", area := "patio", notes := none,
    checkout_date := "d1", checkin_date := none, status := "active",
    created_at := "d1" }

def sampleMovement2 : Movement :=
  { id := "m2", tool_id := "t1", tool_name := "Taladro", type := "checkout",
    quantity := 1, user_name := "bob", area := "taller", notes := none,
    checkout_date := "d2", checkin_date := none, status := "returned",
    created_at := "d2" }

def sampleDB : DB := ⟨[sampleTool], [sampleMovement, sampleMovement2], 10⟩

def sampleW : W := ⟨sampleDB, fun _ => false, 0, []⟩

/-- `sampleDB` with a different stored stock for the same tool. -/
def sampleDB7 : DB :=
  ⟨[{ sampleTool with available_stock := 7 }],
   [sampleMovement, sampleMovement2], 10⟩

theorem mem_insertBy (le : α → α → Bool) (a x : α) (l : List α) :
    x ∈ insertBy le a l ↔ x = a ∨ x ∈ l := by
  induction l with
  | nil => simp [insertBy]
  | cons b bs ih =>
    simp only [insertBy]
    by_cases h : le a b <;> simp [h, ih] <;> tauto

theorem mem_sortBy (le : α → α → Bool) (x : α) (l : List α) :
    x ∈ sortBy le l ↔ x ∈ l := by
  induction l with
  | nil => simp [sortBy]
  | cons a as ih => simp [sortBy, mem_insertBy, ih]

theorem pairwise_insertBy (le : α → α → Bool)
    (hTot : ∀ a b, le a b = true ∨ le b a = true)
    (hTrans : ∀ a b c, le a b = true → le b c = true → le a c = true)
    (a : α) : ∀ l : List α, l.Pairwise (fun x y => le x y = true) →
    (insertBy le a l).Pairwise (fun x y => le x y = true) := by
  intro l
  induction l with
  | nil => intro _; simp [insertBy]
  | cons b bs ih =>
    intro h
    rw [List.pairwise_cons] at h
    obtain ⟨hb, hbs⟩ := h
    simp only [insertBy]
    by_cases hab : le a b = true
    · rw [if_pos hab, List.pairwise_cons]
      refine ⟨?_, List.pairwise_cons.mpr ⟨hb, hbs⟩⟩
      intro x hx
      rcases List.mem_cons.mp hx with rfl | hx
      · exact hab
      · exact hTrans a b x hab (hb x hx)
    · rw [if_neg hab, List.pairwise_cons]
      have hba : le b a = true := (hTot a b).resolve_left hab
      refine ⟨?_, ih hbs⟩
      intro x hx
      rcases (mem_insertBy le a x bs).mp hx with rfl | hx
      · exact hba
      · exact hb x hx

theorem pairwise_sortBy (le : α → α → Bool)
    (hTot : ∀ a b, le a b = true ∨ le b a = true)
    (hTrans : ∀ a b c, le a b = true → le b c = true → le a c = true) :
    ∀ l : List α, (sortBy le l).Pairwise (fun x y => le x y = true) := by
  intro l
  induction l with
  | nil => simp [sortBy]
  | cons a as ih => exact pairwise_insertBy le hTot hTrans a _ ih

theorem charListLe_total : ∀ a b : List Char,
    charListLe a b = true ∨ charListLe b a = true := by
  intro a
  induction a with
  | nil => intro b; left; cases b <;> simp [charListLe]
  | cons x xs ih =>
    intro b
    cases b with
    | nil => right; simp [charListLe]
    | cons y ys =>
      by_cases h1 : x.toNat < y.toNat
      · left; simp [charListLe, h1]
      · by_cases h2 : y.toNat < x.toNat
        · right; simp [charListLe, h2]
        · rcases ih ys with h | h
          · left; simp [charListLe, h1, h2, h]
          · right; simp [charListLe, h1, h2, h]

theorem charListLe_trans : ∀ a b c : List Char,
    charListLe a b = true → charListLe b c = true → charListLe a c = true := by
  intro a
  induction a with
  | nil => intro b c _ _; simp [charListLe]
  | cons x xs ih =>
    intro b c hab hbc
    cases b with
    | nil => simp [charListLe] at hab
    | cons y ys =>
      cases c with
      | nil => simp [charListLe] at hbc
      | cons z zs =>
        simp [charListLe] at hab hbc ⊢
        rcases hab with h | ⟨h, hab2⟩
        · rcases hbc with h2 | ⟨h2, hbc2⟩
          · left; omega
          · left; omega
        · rcases hbc with h2 | ⟨h2, hbc2⟩
          · left; omega
          · right; exact ⟨by omega, ih ys zs hab2 hbc2⟩

theorem lookupBy_map (key : α → String) (f : α → α)
    (hf : ∀ x, key (f x) = key x) (l : List α) (id : String) :
    lookupBy key (l.map f) id = (lookupBy key l id).map f := by
  induction l with
  | nil => rfl
  | cons a as ih =>
    simp only [List.map_cons, lookupBy, hf a]
    cases hpa : (key a == id) with
    | true => simp [hpa]
    | false => simp [hpa, ih]

theorem lookupBy_append_left (key : α → String) (l1 l2 : List α) (id : String)
    (x : α) (h : lookupBy key l1 id = some x) :
    lookupBy key (l1 ++ l2) id = some x := by
  induction l1 with
  | nil => simp [lookupBy] at h
  | cons a as ih =>
    simp only [List.cons_append, lookupBy] at h ⊢
    cases hpa : (key a == id) with
    | true => simpa [hpa] using h
    | false =>
      rw [if_neg (by simp [hpa])] at h ⊢
      exact ih h

theorem lookupBy_some_key (key : α → String) (l : List α) (id : String)
    (x : α) (h : lookupBy key l id = some x) : key x = id := by
  induction l with
  | nil => simp [lookupBy] at h
  | cons a as ih =>
    simp only [lookupBy] at h
    cases hpa : (key a == id) with
    | true =>
      rw [if_pos (by simp [hpa])] at h
      obtain rfl : a = x := by simpa using h
      simpa using hpa
    | false =>
      rw [if_neg (by simp [hpa])] at h
      exact ih h

theorem strLe_total (a b : String) : strLe a b = true ∨ strLe b a = true :=
  charListLe_total a.data b.data

theorem strLe_trans (a b c : String) (h1 : strLe a b = true)
    (h2 : strLe b c = true) : strLe a c = true :=
  charListLe_trans a.data b.data c.data h1 h2

/-- Claim C7: after a successful `fetchToolsInUse`, `toolsInUse` is a
mirrored projection of exactly the remote movements rows with status
'active', ordered by checkout_date descending, where each `ToolUsage` copies
tool_id, tool_name, user_name, area, quantity and checkout_date from its row
and sets movement_id to the row's id. -/
theorem C7_fetchToolsInUse_mirrors_active_desc (s : ToolsState) (w : W)
    (h : nextFails w = false) :
    (fetchToolsInUse s w).1.toolsInUse
        = (activeMovementsQuery w.db).map toUsage ∧
    (∀ u, u ∈ (fetchToolsInUse s w).1.toolsInUse ↔
        ∃ m ∈ w.db.movements, m.status = "active" ∧ u = toUsage m) ∧
    (fetchToolsInUse s w).1.toolsInUse.Pairwise
        (fun a b => strLe b.checkout_date a.checkout_date = true) ∧
    (∀ m : Movement, toUsage m =
        { tool_id := m.tool_id, tool_name := m.tool_name,
          user_name := m.user_name, area := m.area, quantity := m.quantity,
          checkout_date := m.checkout_date, movement_id := m.id }) := by
  have h1 : (fetchToolsInUse s w).1.toolsInUse
      = (activeMovementsQuery w.db).map toUsage := by
    simp [fetchToolsInUse, callSelActiveMovements, h]
  refine ⟨h1, ?_, ?_, fun m => rfl⟩
  · intro u
    rw [h1]
    simp only [activeMovementsQuery, List.mem_map, mem_sortBy,
      List.mem_filter, beq_iff_eq]
    constructor
    · rintro ⟨m, ⟨hm, hst⟩, rfl⟩
      exact ⟨m, hm, hst, rfl⟩
    · rintro ⟨m, hm, hst, rfl⟩
      exact ⟨m, ⟨hm, hst⟩, rfl⟩
  · rw [h1, List.pairwise_map]
    exact pairwise_sortBy
      (fun a b : Movement => strLe b.checkout_date a.checkout_date)
      (fun a b => strLe_total b.checkout_date a.checkout_date)
      (fun a b c hab hbc =>
        strLe_trans c.checkout_date b.checkout_date a.checkout_date hbc hab)
      (w.db.movements.filter (fun m => m.status == "active"))

/-- `C7_fetchToolsInUse_mirrors_active_desc` evaluated on `sampleW`. -/
theorem C7_fetchToolsInUse_mirrors_active_desc_witness :
    (fetchToolsInUse ⟨[], [], true⟩ sampleW).1.toolsInUse
        = (activeMovementsQuery sampleW.db).map toUsage ∧
    (fetchToolsInUse ⟨[], [], true⟩ sampleW).1.toolsInUse.Pairwise
        (fun a b => strLe b.checkout_date a.checkout_date = true) :=
  ⟨(C7_fetchToolsInUse_mirrors_active_desc ⟨[], [], true⟩ sampleW
      (by decide)).1,
   (C7_fetchToolsInUse_mirrors_active_desc ⟨[], [], true⟩ sampleW
      (by decide)).2.2.1⟩

/-- Claim C2: if the tool row cannot be fetched (failed call or no row) or
its available_stock is below the requested quantity, `createCheckout`
returns data null with the 'Stock insuficiente' error and performs no
insert and no stock write (the world only records the single select);
otherwise it inserts an 'active' checkout movement (returned to the caller
and appended to the movements table, with the stated trace) and decreases
available_stock by exactly the requested quantity, which the guard keeps
non-negative. -/
theorem C2_createCheckout_guard (now toolId toolName userName area : String)
    (notes : Option String) (q : Int) (s : MovState) (w : W) :
    (w.fl w.ix = true →
      createCheckout true now toolId toolName q userName area notes s w
        = (⟨none, some .stockInsuficiente⟩, s, bump (.selToolStock toolId) w)) ∧
    (w.fl w.ix = false → toolById w.db toolId = none →
      createCheckout true now toolId toolName q userName area notes s w
        = (⟨none, some .stockInsuficiente⟩, s, bump (.selToolStock toolId) w)) ∧
    (∀ t0, w.fl w.ix = false → toolById w.db toolId = some t0 →
      t0.available_stock < q →
      createCheckout true now toolId toolName q userName area notes s w
        = (⟨none, some .stockInsuficiente⟩, s, bump (.selToolStock toolId) w)) ∧
    (∀ t0, w.fl w.ix = false → toolById w.db toolId = some t0 →
      ¬ t0.available_stock < q → w.fl (w.ix + 1) = false →
      w.fl (w.ix + 2) = false →
      (∃ r, (createCheckout true now toolId toolName q userName area notes s
            w).1 = ⟨some r, none⟩ ∧
         r.status = "active" ∧ r.type = "checkout" ∧ r.tool_id = toolId ∧
         r.tool_name = toolName ∧ r.quantity = q ∧ r.user_name = userName ∧
         r.area = area ∧ r.checkout_date = now ∧
         (createCheckout true now toolId toolName q userName area notes s
             w).2.2.db.movements = w.db.movements ++ [r]) ∧
      (createCheckout true now toolId toolName q userName area notes s
          w).2.2.tr
        = w.tr ++ [.selToolStock toolId,
            .insMovement (checkoutPayload now toolId toolName q userName
               area notes),
            .updToolStock toolId (t0.available_stock - q),
            .selMovementsAll] ∧
      (createCheckout true now toolId toolName q userName area notes s
          w).2.2.db.tools
        = w.db.tools.map (fun t => if t.id == toolId then
            { t with available_stock := t0.available_stock - q } else t) ∧
      toolById (createCheckout true now toolId toolName q userName area notes
          s w).2.2.db toolId
        = some { t0 with available_stock := t0.available_stock - q } ∧
      0 ≤ t0.available_stock - q) := by
  refine ⟨?_, ?_, ?_, ?_⟩
  · intro hf
    simp [createCheckout, callSelToolStock, nextFails, hf]
  · intro hf hfind
    simp [createCheckout, callSelToolStock, nextFails, hf, hfind]
  · intro t0 hf hfind hlt
    simp [createCheckout, callSelToolStock, nextFails, hf, hfind, hlt]
  · intro t0 hf hfind hge hf1 hf2
    have hdb : (createCheckout true now toolId toolName q userName area notes
        s w).2.2.db.tools
        = w.db.tools.map (fun t => if t.id == toolId then
            { t with available_stock := t0.available_stock - q } else t) := by
      by_cases hf3 : w.fl (w.ix + 3) = true <;>
        simp [createCheckout, callSelToolStock, callInsMovement,
          callUpdToolStock, fetchMovements, callSelMovementsAll, nextFails,
          bump, hf, hfind, hge, hf1, hf2, hf3]
    have hrow : (createCheckout true now toolId toolName q userName area
        notes s w).1
        = ⟨some (mkMovementRow now w.db (checkoutPayload now toolId toolName
            q userName area notes)), none⟩ := by
      by_cases hf3 : w.fl (w.ix + 3) = true <;>
        simp [createCheckout, callSelToolStock, callInsMovement,
          callUpdToolStock, fetchMovements, callSelMovementsAll, nextFails,
          bump, hf, hfind, hge, hf1, hf2, hf3]
    have hmov : (createCheckout true now toolId toolName q userName area
        notes s w).2.2.db.movements
        = w.db.movements ++ [mkMovementRow now w.db (checkoutPayload now
            toolId toolName q userName area notes)] := by
      by_cases hf3 : w.fl (w.ix + 3) = true <;>
        simp [createCheckout, callSelToolStock, callInsMovement,
          callUpdToolStock, fetchMovements, callSelMovementsAll, nextFails,
          bump, hf, hfind, hge, hf1, hf2, hf3]
    have htr : (createCheckout true now toolId toolName q userName area
        notes s w).2.2.tr
        = w.tr ++ [.selToolStock toolId,
            .insMovement (checkoutPayload now toolId toolName q userName
               area notes),
            .updToolStock toolId (t0.available_stock - q),
            .selMovementsAll] := by
      by_cases hf3 : w.fl (w.ix + 3) = true <;>
        simp [createCheckout, callSelToolStock, callInsMovement,
          callUpdToolStock, fetchMovements, callSelMovementsAll, nextFails,
          bump, hf, hfind, hge, hf1, hf2, hf3]
    refine ⟨⟨mkMovementRow now w.db (checkoutPayload now toolId toolName q
        userName area notes), hrow, rfl, rfl, rfl, rfl, rfl, rfl, rfl, rfl,
        hmov⟩, htr, hdb, ?_, by omega⟩
    have hfind2 : lookupBy Tool.id w.db.tools toolId = some t0 := by
      simpa [toolById] using hfind
    have hkey : t0.id = toolId :=
      lookupBy_some_key Tool.id w.db.tools toolId t0 hfind2
    have hmap := lookupBy_map Tool.id
      (fun t => if t.id == toolId then
        { t with available_stock := t0.available_stock - q } else t)
      (fun x => by by_cases hx : (x.id == toolId) = true <;> simp [hx])
      w.db.tools toolId
    simp only [toolById, hdb, hmap, hfind2, Option.map_some]
    simp [hkey]

/-- `C2_createCheckout_guard` evaluated on `sampleW`: a request for 9 of a
tool with 5 available is rejected, and a request for 2 is accepted,
appends an 'active' movement and leaves 3 ≥ 0 available. -/
theorem C2_createCheckout_guard_witness :
    createCheckout true "d3" "t1" "Taladro" 9 "ana" "patio" none ⟨[], true⟩
        sampleW
      = (⟨none, some .stockInsuficiente⟩, ⟨[], true⟩,
         bump (.selToolStock "t1") sampleW) ∧
    (∃ r, (createCheckout true "d3" "t1" "Taladro" 2 "ana" "patio" none
          ⟨[], true⟩ sampleW).1 = ⟨some r, none⟩ ∧
       r.status = "active" ∧
       (createCheckout true "d3" "t1" "Taladro" 2 "ana" "patio" none
           ⟨[], true⟩ sampleW).2.2.db.movements
         = sampleDB.movements ++ [r]) ∧
    toolById (createCheckout true "d3" "t1" "Taladro" 2 "ana" "patio" none
        ⟨[], true⟩ sampleW).2.2.db "t1"
      = some { sampleTool with available_stock := 3 } ∧
    (0 : Int) ≤ sampleTool.available_stock - 2 := by
  have hrej := (C2_createCheckout_guard "d3" "t1" "Taladro" "ana" "patio"
      none 9 ⟨[], true⟩ sampleW).2.2.1 sampleTool (by decide) (by decide)
      (by decide)
  have hacc := (C2_createCheckout_guard "d3" "t1" "Taladro" "ana" "patio"
      none 2 ⟨[], true⟩ sampleW).2.2.2 sampleTool (by decide) (by decide)
      (by decide) (by decide) (by decide)
  obtain ⟨r, h1, h2, _, _, _, _, _, _, _, h10⟩ := hacc.1
  exact ⟨hrej, ⟨r, h1, h2, h10⟩, hacc.2.2.2.1, hacc.2.2.2.2⟩

/-- Claim C4: for every returnQuantity, a check-in whose calls succeed marks
the original movement 'returned' with a checkin_date, inserts a 'returned'
checkin movement copying tool_id, tool_name, area and checkout_date from the
original, and increases the tool's available_stock by exactly
returnQuantity, with no check against the originally checked-out quantity;
on the sample data, returning 100 against a checkout of 2 drives
available_stock to 105, above the tool's stock of 5. -/
theorem C4_createCheckin_unbounded_return (now movementId userName : String)
    (notes : Option String) (rq : Int) (s : MovState) (w : W) :
    (∀ m t0, movementById w.db movementId = some m →
      toolById w.db m.tool_id = some t0 →
      w.fl w.ix = false → w.fl (w.ix + 1) = false → w.fl (w.ix + 2) = false →
      w.fl (w.ix + 3) = false → w.fl (w.ix + 4) = false →
      ((createCheckin true now movementId rq userName notes s w).1.error
          = none ∧
       (∃ r, (createCheckin true now movementId rq userName notes s
            w).1.data = some r ∧
          r.tool_id = m.tool_id ∧ r.tool_name = m.tool_name ∧
          r.area = m.area ∧ r.checkout_date = m.checkout_date ∧
          r.type = "checkin" ∧ r.quantity = rq ∧ r.status = "returned" ∧
          r.checkin_date = some now) ∧
       movementById (createCheckin true now movementId rq userName notes s
           w).2.2.db movementId
         = some { m with status := "returned", checkin_date := some now } ∧
       toolById (createCheckin true now movementId rq userName notes s
           w).2.2.db m.tool_id
         = some { t0 with available_stock := t0.available_stock + rq })) ∧
    ((toolById (createCheckin true "d4" "m1" 100 "bob" none ⟨[], true⟩
        sampleW).2.2.db "t1").map Tool.available_stock = some 105 ∧
     sampleTool.stock < (105 : Int)) := by
  constructor
  · intro m t0 hm ht hf0 hf1 hf2 hf3 hf4
    have hm' : lookupBy Movement.id w.db.movements movementId = some m := by
      simpa [movementById] using hm
    have ht' : lookupBy Tool.id w.db.tools m.tool_id = some t0 := by
      simpa [toolById] using ht
    have hmk : m.id = movementId :=
      lookupBy_some_key Movement.id w.db.movements movementId m hm'
    have htk : t0.id = m.tool_id :=
      lookupBy_some_key Tool.id w.db.tools m.tool_id t0 ht'
    have hres : (createCheckin true now movementId rq userName notes s w).1
        = ⟨some (mkMovementRow now
            { w.db with movements := w.db.movements.map (fun x =>
                if x.id == movementId then
                  { x with status := "returned", checkin_date := some now }
                else x) }
            (checkinPayload now m rq userName notes)), none⟩ := by
      by_cases hf5 : w.fl (w.ix + 5) = true <;>
        simp [createCheckin, callSelMovement, callUpdMovementReturned,
          callInsMovement, callSelToolStock, callUpdToolStock, fetchMovements,
          callSelMovementsAll, nextFails, bump, movementById, toolById, hm',
          ht', hf0, hf1, hf2, hf3, hf4, hf5]
    have hdb : (createCheckin true now movementId rq userName notes s
        w).2.2.db
        = { tools := w.db.tools.map (fun t =>
              if t.id == m.tool_id then
                { t with available_stock := t0.available_stock + rq }
              else t),
            movements := (w.db.movements.map (fun x =>
              if x.id == movementId then
                { x with status := "returned", checkin_date := some now }
              else x)) ++ [mkMovementRow now
                { w.db with movements := w.db.movements.map (fun x =>
                    if x.id == movementId then
                      { x with status := "returned",
                               checkin_date := some now }
                    else x) }
                (checkinPayload now m rq userName notes)],
            nextId := w.db.nextId + 1 } := by
      by_cases hf5 : w.fl (w.ix + 5) = true <;>
        simp [createCheckin, callSelMovement, callUpdMovementReturned,
          callInsMovement, callSelToolStock, callUpdToolStock, fetchMovements,
          callSelMovementsAll, nextFails, bump, movementById, toolById, hm',
          ht', hf0, hf1, hf2, hf3, hf4, hf5]
    refine ⟨by rw [hres], ?_, ?_, ?_⟩
    · refine ⟨_, by rw [hres], ?_⟩
      simp [mkMovementRow, checkinPayload]
    · have hmap := lookupBy_map Movement.id
        (fun x => if x.id == movementId then
          { x with status := "returned", checkin_date := some now } else x)
        (fun x => by by_cases hx : (x.id == movementId) = true <;> simp [hx])
        w.db.movements movementId
      simp only [movementById, hdb]
      apply lookupBy_append_left
      rw [hmap, hm']
      simp [hmk]
    · have hmap := lookupBy_map Tool.id
        (fun t => if t.id == m.tool_id then
          { t with available_stock := t0.available_stock + rq } else t)
        (fun x => by by_cases hx : (x.id == m.tool_id) = true <;> simp [hx])
        w.db.tools m.tool_id
      simp only [toolById, hdb, hmap, ht']
      simp [htk]
  · constructor
    · decide
    · decide

/-- `C4_createCheckin_unbounded_return` evaluated on `sampleW`: returning
100 of movement `m1` succeeds and sets the tool's available_stock to
5 + 100. -/
theorem C4_createCheckin_unbounded_return_witness :
    (createCheckin true "d4" "m1" 100 "bob" none ⟨[], true⟩
        sampleW).1.error = none ∧
    toolById (createCheckin true "d4" "m1" 100 "bob" none ⟨[], true⟩
        sampleW).2.2.db sampleMovement.tool_id
      = some { sampleTool with
                 available_stock := sampleTool.available_stock + 100 } := by
  have h := (C4_createCheckin_unbounded_return "d4" "m1" "bob" none 100
      ⟨[], true⟩ sampleW).1 sampleMovement sampleTool (by decide) (by decide)
      (by decide) (by decide) (by decide) (by decide) (by decide)
  exact ⟨h.1, h.2.2.2⟩

/-- Claim C5: a failed backend call is only caught and logged or returned:
no retry and no compensating write.  (a) When the checkin insert fails after
the original movement was already marked 'returned', `createCheckin` returns
the error and the 'returned' update stays in the database, the insert having
been attempted exactly once; (b) when the stock update of `createCheckout`
fails after the movement insert, the inserted movement stays, the stock is
unwritten, and the operation even reports success; (c) a failed `fetchTools`
leaves the hook state unchanged after its single select. -/
theorem C5_no_retry_no_compensation (now movementId toolId toolName userName
    area : String) (notes : Option String) (q rq : Int) (s : MovState)
    (st : ToolsState) (w : W) :
    (∀ m, movementById w.db movementId = some m →
      w.fl w.ix = false → w.fl (w.ix + 1) = false → w.fl (w.ix + 2) = true →
      createCheckin true now movementId rq userName notes s w
        = (⟨none, some .backend⟩, s,
           ⟨{ w.db with movements := w.db.movements.map (fun x =>
                if x.id == movementId then
                  { x with status := "returned", checkin_date := some now }
                else x) },
            w.fl, w.ix + 3,
            w.tr ++ [.selMovement movementId,
                     .updMovementReturned movementId now,
                     .insMovement (checkinPayload now m rq userName
                        notes)]⟩)) ∧
    (∀ t0, toolById w.db toolId = some t0 → ¬ t0.available_stock < q →
      w.fl w.ix = false → w.fl (w.ix + 1) = false → w.fl (w.ix + 2) = true →
      ((createCheckout true now toolId toolName q userName area notes s
          w).1.error = none ∧
       (createCheckout true now toolId toolName q userName area notes s
          w).2.2.db.tools = w.db.tools ∧
       (createCheckout true now toolId toolName q userName area notes s
          w).2.2.db.movements
         = w.db.movements ++ [mkMovementRow now w.db
             (checkoutPayload now toolId toolName q userName area notes)] ∧
       (createCheckout true now toolId toolName q userName area notes s
          w).2.2.tr
         = w.tr ++ [.selToolStock toolId,
                    .insMovement (checkoutPayload now toolId toolName q
                       userName area notes),
                    .updToolStock toolId (t0.available_stock - q),
                    .selMovementsAll])) ∧
    (w.fl w.ix = true → fetchTools st w = (st, bump .selTools w)) := by
  refine ⟨?_, ?_, ?_⟩
  · intro m hm hf0 hf1 hf2
    have hm' : lookupBy Movement.id w.db.movements movementId = some m := by
      simpa [movementById] using hm
    simp [createCheckin, callSelMovement, callUpdMovementReturned,
      callInsMovement, nextFails, bump, movementById, hm', hf0, hf1, hf2]
  · intro t0 ht hge hf0 hf1 hf2
    have ht' : lookupBy Tool.id w.db.tools toolId = some t0 := by
      simpa [toolById] using ht
    by_cases hf3 : w.fl (w.ix + 3) = true <;>
      simp [createCheckout, callSelToolStock, callInsMovement,
        callUpdToolStock, fetchMovements, callSelMovementsAll, nextFails,
        bump, toolById, ht', hge, hf0, hf1, hf2, hf3]
  · intro hf
    simp [fetchTools, callSelTools, nextFails, hf]

/-- `C5_no_retry_no_compensation` evaluated on `sampleW` with the insert
failing: the original movement is already marked 'returned' and stays so. -/
theorem C5_no_retry_no_compensation_witness :
    createCheckin true "d4" "m1" 1 "bob" none ⟨[], true⟩
        { sampleW with fl := fun n => n == 2 }
      = (⟨none, some .backend⟩, ⟨[], true⟩,
         ⟨{ sampleDB with movements := sampleDB.movements.map (fun x =>
              if x.id == "m1" then
                { x with status := "returned", checkin_date := some "d4" }
              else x) },
          fun n => n == 2, 3,
          [.selMovement "m1", .updMovementReturned "m1" "d4",
           .insMovement (checkinPayload "d4" sampleMovement 1 "bob"
              none)]⟩) :=
  (C5_no_retry_no_compensation "d4" "m1" "t1" "Taladro" "bob" "patio" none
      1 1 ⟨[], true⟩ ⟨[], [], true⟩
      { sampleW with fl := fun n => n == 2 }).1 sampleMovement (by decide)
      (by decide) (by decide) (by decide)

/-- Claim C8: for every email and password, `signIn` forwards them to the
backend auth API and returns that call's data and error unchanged, and
`signOut` forwards and returns its error unchanged; neither touches the
database or implements any authentication logic locally (the backend's
behaviour is an arbitrary oracle). -/
theorem C8_auth_passthrough (auth : String → String → AuthRes)
    (authOut : Option Err) (email password : String) (w : W) :
    (signIn true auth email password w).1 = auth email password ∧
    (signIn true auth email password w).2.tr
      = w.tr ++ [.authSignInC email password] ∧
    (signIn true auth email password w).2.db = w.db ∧
    (signOut true authOut w).1 = authOut ∧
    (signOut true authOut w).2.tr = w.tr ++ [.authSignOutC] ∧
    (signOut true authOut w).2.db = w.db := by
  simp [signIn, signOut]

/-- Claim C9: with no configured client, `fetchMovements` stores the empty
list and clears loading without contacting the backend, and `createCheckout`,
`createCheckin`, `signIn` and `signOut` each return data null with the
'Supabase not configured' error and issue no remote call; the `useTools`
operations have no such guard: their error is never 'Supabase not
configured'. -/
theorem C9_not_configured_guards (now movementId toolId toolName userName
    area email password : String) (notes : Option String) (q rq : Int)
    (t : ToolInput) (p : ToolPatch) (auth : String → String → AuthRes)
    (authOut : Option Err) (s : MovState) (st : ToolsState) (w : W) :
    fetchMovements false s w = (⟨[], false⟩, w) ∧
    createCheckout false now toolId toolName q userName area notes s w
      = (⟨none, some .notConfigured⟩, s, w) ∧
    createCheckin false now movementId rq userName notes s w
      = (⟨none, some .notConfigured⟩, s, w) ∧
    signIn false auth email password w = (⟨none, some .notConfigured⟩, w) ∧
    signOut false authOut w = (some .notConfigured, w) ∧
    (addTool now t st w).1.error ≠ some .notConfigured ∧
    (updateTool now toolId p st w).1.error ≠ some .notConfigured ∧
    (deleteTool toolId st w).1 ≠ some .notConfigured := by
  refine ⟨rfl, rfl, rfl, rfl, rfl, ?_, ?_, ?_⟩
  · cases hf : w.fl w.ix with
    | true => simp [addTool, callInsTool, nextFails, hf]
    | false =>
      cases hf1 : w.fl (w.ix + 1) <;>
        simp [addTool, callInsTool, fetchTools, callSelTools, nextFails,
          bump, hf, hf1]
  · cases hf : w.fl w.ix with
    | true => simp [updateTool, callUpdTool, nextFails, hf]
    | false =>
      cases hlk : toolById w.db toolId with
      | none =>
        simp [updateTool, callUpdTool, nextFails, hf, hlk]
      | some t0 =>
        cases hf1 : w.fl (w.ix + 1) <;>
          simp [updateTool, callUpdTool, fetchTools, callSelTools, nextFails,
            bump, hf, hf1, hlk]
  · cases hf : w.fl w.ix with
    | true => simp [deleteTool, callDelTool, nextFails, hf]
    | false =>
      cases hf1 : w.fl (w.ix + 1) <;>
        simp [deleteTool, callDelTool, fetchTools, callSelTools, nextFails,
          bump, hf, hf1]

/-- Claim C10: the row `addTool` inserts carries `available_stock` equal to
the given stock (a new tool starts fully available), and its id,
created_at and updated_at are generated by the backend (`freshId` and the
clock), not supplied by the client, whose payload has no such fields. -/
theorem C10_addTool_starts_fully_available (now : String) (t : ToolInput)
    (st : ToolsState) (w : W) (hf : w.fl w.ix = false) :
    (addTool now t st w).1.data
      = some { id := freshId w.db, name := t.name, stock := t.stock,
               available_stock := t.stock, created_at := now,
               updated_at := now } ∧
    (addTool now t st w).2.2.db.tools
      = w.db.tools
        ++ [{ id := freshId w.db, name := t.name, stock := t.stock,
              available_stock := t.stock, created_at := now,
              updated_at := now }] ∧
    (addToolPayload t).available_stock = t.stock := by
  cases hf1 : w.fl (w.ix + 1) <;>
    simp [addTool, addToolPayload, callInsTool, mkToolRow, fetchTools,
      callSelTools, nextFails, bump, hf, hf1]

/-- `C10_addTool_starts_fully_available` evaluated on `sampleW`. -/
theorem C10_addTool_starts_fully_available_witness :
    (addTool "d5" ⟨"Sierra", 4, 0⟩ ⟨[], [], true⟩ sampleW).1.data
      = some { id := freshId sampleW.db, name := "Sierra", stock := 4,
               available_stock := 4, created_at := "d5",
               updated_at := "d5" } :=
  (C10_addTool_starts_fully_available "d5" ⟨"Sierra", 4, 0⟩ ⟨[], [], true⟩
      sampleW (by decide)).1

theorem removeSub_append_not_mem (x : ToolsSub) (l1 l2 : List ToolsSub)
    (h : x ∉ l1) : removeSub x (l1 ++ l2) = l1 ++ removeSub x l2 := by
  induction l1 with
  | nil => rfl
  | cons a as ih =>
    simp only [List.mem_cons, not_or] at h
    simp only [List.cons_append, removeSub]
    rw [if_neg (fun e => h.1 e.symm)]
    exact congrArg (List.cons a) (ih h.2)

/-- Claim C3: each hook fetches its lists on mount; each mutation that
succeeds re-fetches the affected lists from the backend (the re-fetch
select follows the write in the trace, and the returned state mirrors the
post-write database); each external change notification re-invokes the
fetch functions.  Stated for runs whose backend calls all succeed. -/
theorem C3_fetch_on_mount_and_after_mutation (now toolId toolName userName
    area movementId : String) (notes : Option String) (q rq : Int)
    (t : ToolInput) (p : ToolPatch) (s : MovState) (st : ToolsState) (w : W)
    (reg : List ToolsSub) (hAll : ∀ n, w.fl n = false) :
    ((useToolsMount st w reg).1.tools = toolsQuery w.db ∧
     (useToolsMount st w reg).1.toolsInUse
       = (activeMovementsQuery w.db).map toUsage ∧
     (useToolsMount st w reg).1.loading = false ∧
     (useToolsMount st w reg).2.1.tr
       = w.tr ++ [.selTools, .selActiveMovements]) ∧
    ((useMovementsMount true s w reg).1.movements = allMovementsQuery w.db ∧
     (useMovementsMount true s w reg).1.loading = false ∧
     (useMovementsMount true s w reg).2.1.tr = w.tr ++ [.selMovementsAll]) ∧
    ((addTool now t st w).2.1.tools
       = toolsQuery (addTool now t st w).2.2.db ∧
     (addTool now t st w).2.2.tr
       = w.tr ++ [.insTool (addToolPayload t), .selTools]) ∧
    (∀ t0, toolById w.db toolId = some t0 →
      (updateTool now toolId p st w).2.1.tools
        = toolsQuery (updateTool now toolId p st w).2.2.db ∧
      (updateTool now toolId p st w).2.2.tr
        = w.tr ++ [.updTool toolId p now, .selTools]) ∧
    ((deleteTool toolId st w).2.1.tools
       = toolsQuery (deleteTool toolId st w).2.2.db ∧
     (deleteTool toolId st w).2.2.tr
       = w.tr ++ [.delTool toolId, .selTools]) ∧
    (∀ t0, toolById w.db toolId = some t0 → ¬ t0.available_stock < q →
      (createCheckout true now toolId toolName q userName area notes s
          w).2.1.movements
        = allMovementsQuery (createCheckout true now toolId toolName q
            userName area notes s w).2.2.db ∧
      (createCheckout true now toolId toolName q userName area notes s
          w).2.2.tr
        = w.tr ++ [.selToolStock toolId,
            .insMovement (checkoutPayload now toolId toolName q userName
               area notes),
            .updToolStock toolId (t0.available_stock - q),
            .selMovementsAll]) ∧
    (∀ m t0, movementById w.db movementId = some m →
      toolById w.db m.tool_id = some t0 →
      (createCheckin true now movementId rq userName notes s
          w).2.1.movements
        = allMovementsQuery (createCheckin true now movementId rq userName
            notes s w).2.2.db ∧
      (createCheckin true now movementId rq userName notes s w).2.2.tr
        = w.tr ++ [.selMovement movementId,
            .updMovementReturned movementId now,
            .insMovement (checkinPayload now m rq userName notes),
            .selToolStock m.tool_id,
            .updToolStock m.tool_id (t0.available_stock + rq),
            .selMovementsAll]) ∧
    ((onToolsChange st w).1.tools = toolsQuery w.db ∧
     (onToolsChange st w).2.tr = w.tr ++ [.selTools]) ∧
    ((onToolsMovementsChange st w).1.tools = toolsQuery w.db ∧
     (onToolsMovementsChange st w).1.toolsInUse
       = (activeMovementsQuery w.db).map toUsage ∧
     (onToolsMovementsChange st w).2.tr
       = w.tr ++ [.selActiveMovements, .selTools]) ∧
    ((onMovementsChange true s w).1.movements = allMovementsQuery w.db ∧
     (onMovementsChange true s w).2.tr = w.tr ++ [.selMovementsAll]) := by
  refine ⟨?_, ?_, ?_, ?_, ?_, ?_, ?_, ?_, ?_, ?_⟩
  · refine ⟨?_, ?_, ?_, ?_⟩ <;>
      simp [useToolsMount, fetchTools, fetchToolsInUse, callSelTools,
        callSelActiveMovements, nextFails, bump, hAll]
  · refine ⟨?_, ?_, ?_⟩ <;>
      simp [useMovementsMount, fetchMovements, callSelMovementsAll,
        nextFails, bump, hAll]
  · constructor <;>
      simp [addTool, callInsTool, fetchTools, callSelTools, nextFails, bump,
        hAll]
  · intro t0 hlk
    have hlk' : lookupBy Tool.id w.db.tools toolId = some t0 := by
      simpa [toolById] using hlk
    constructor <;>
      simp [updateTool, callUpdTool, fetchTools, callSelTools, toolById,
        nextFails, bump, hAll, hlk']
  · constructor <;>
      simp [deleteTool, callDelTool, fetchTools, callSelTools, nextFails,
        bump, hAll]
  · intro t0 hlk hge
    have hlk' : lookupBy Tool.id w.db.tools toolId = some t0 := by
      simpa [toolById] using hlk
    constructor <;>
      simp [createCheckout, callSelToolStock, callInsMovement,
        callUpdToolStock, fetchMovements, callSelMovementsAll, toolById,
        nextFails, bump, hAll, hlk', hge]
  · intro m t0 hm ht
    have hm' : lookupBy Movement.id w.db.movements movementId = some m := by
      simpa [movementById] using hm
    have ht' : lookupBy Tool.id w.db.tools m.tool_id = some t0 := by
      simpa [toolById] using ht
    constructor <;>
      simp [createCheckin, callSelMovement, callUpdMovementReturned,
        callInsMovement, callSelToolStock, callUpdToolStock, fetchMovements,
        callSelMovementsAll, movementById, toolById, nextFails, bump, hAll,
        hm', ht']
  · constructor <;>
      simp [onToolsChange, fetchTools, callSelTools, nextFails, bump, hAll]
  · refine ⟨?_, ?_, ?_⟩ <;>
      simp [onToolsMovementsChange, fetchTools, fetchToolsInUse,
        callSelTools, callSelActiveMovements, nextFails, bump, hAll]
  · constructor <;>
      simp [onMovementsChange, fetchMovements, callSelMovementsAll,
        nextFails, bump, hAll]

/-- `C3_fetch_on_mount_and_after_mutation` evaluated on `sampleW`: the
mounted `useTools` state mirrors the database queries. -/
theorem C3_fetch_on_mount_and_after_mutation_witness :
    (useToolsMount ⟨[], [], false⟩ sampleW []).1.tools
      = toolsQuery sampleW.db ∧
    (useToolsMount ⟨[], [], false⟩ sampleW []).1.toolsInUse
      = (activeMovementsQuery sampleW.db).map toUsage :=
  ⟨((C3_fetch_on_mount_and_after_mutation "d5" "t1" "Taladro" "ana" "patio"
      "m1" none 1 1 ⟨"S", 1, 1⟩ {} ⟨[], true⟩ ⟨[], [], false⟩ sampleW []
      (fun _ => rfl)).1).1,
   ((C3_fetch_on_mount_and_after_mutation "d5" "t1" "Taladro" "ana" "patio"
      "m1" none 1 1 ⟨"S", 1, 1⟩ {} ⟨[], true⟩ ⟨[], [], false⟩ sampleW []
      (fun _ => rfl)).1).2.1⟩

/-- Claim C6: each hook delegates external-change propagation to the
backend's subscription mechanism: `useTools` registers exactly its two
channel subscriptions and `useMovements` its one (none when unconfigured);
the tools handler re-invokes only `fetchTools` (leaving toolsInUse and
loading untouched), the movements handlers re-invoke the fetch functions,
and unmounting removes exactly the subscriptions mount registered. -/
theorem C6_realtime_subscription_wiring (s : MovState) (st : ToolsState)
    (w : W) (reg : List ToolsSub) :
    (useToolsMount st w reg).2.2
      = reg ++ [⟨"tools", "tools"⟩, ⟨"movements", "movements"⟩] ∧
    (useMovementsMount true s w reg).2.2
      = reg ++ [⟨"movements", "movements"⟩] ∧
    (useMovementsMount false s w reg).2.2 = reg ∧
    onToolsChange st w = fetchTools st w ∧
    (onToolsChange st w).1.toolsInUse = st.toolsInUse ∧
    (onToolsChange st w).1.loading = st.loading ∧
    onToolsMovementsChange st w
      = fetchTools (fetchToolsInUse st w).1 (fetchToolsInUse st w).2 ∧
    onMovementsChange true s w = fetchMovements true s w ∧
    ((⟨"tools", "tools"⟩ : ToolsSub) ∉ reg →
      (⟨"movements", "movements"⟩ : ToolsSub) ∉ reg →
      useToolsCleanup (useToolsMount st w reg).2.2 = reg) ∧
    ((⟨"movements", "movements"⟩ : ToolsSub) ∉ reg →
      useMovementsCleanup (useMovementsMount true s w reg).2.2 = reg) := by
  rcases hf1 : fetchTools { st with loading := true } w with ⟨s1, w1⟩
  rcases hf2 : fetchToolsInUse s1 w1 with ⟨s2, w2⟩
  rcases hf3 : fetchMovements true s w with ⟨s3, w3⟩
  rcases hf4 : fetchMovements false s w with ⟨s4, w4⟩
  rcases hf5 : fetchToolsInUse st w with ⟨s5, w5⟩
  have hmount : (useToolsMount st w reg).2.2
      = reg ++ [⟨"tools", "tools"⟩, ⟨"movements", "movements"⟩] := by
    simp [useToolsMount, hf1, hf2]
  refine ⟨hmount, ?_, ?_, rfl, ?_, ?_, ?_, ?_, ?_, ?_⟩
  · simp [useMovementsMount, hf3]
  · simp [useMovementsMount, hf4]
  · cases hf : w.fl w.ix <;>
      simp [onToolsChange, fetchTools, callSelTools, nextFails, hf]
  · cases hf : w.fl w.ix <;>
      simp [onToolsChange, fetchTools, callSelTools, nextFails, hf]
  · simp [onToolsMovementsChange, hf5]
  · simp [onMovementsChange, hf3]
  · intro hnt hnm
    rw [hmount]
    simp only [useToolsCleanup]
    rw [removeSub_append_not_mem _ _ _ hnt]
    have e1 : removeSub ⟨"tools", "tools"⟩
        [(⟨"tools", "tools"⟩ : ToolsSub), ⟨"movements", "movements"⟩]
        = [⟨"movements", "movements"⟩] := by
      simp [removeSub]
    rw [e1, removeSub_append_not_mem _ _ _ hnm]
    have e2 : removeSub ⟨"movements", "movements"⟩
        [(⟨"movements", "movements"⟩ : ToolsSub)] = [] := by
      simp [removeSub]
    rw [e2]
    simp
  · intro hnm
    have hm2 : (useMovementsMount true s w reg).2.2
        = reg ++ [⟨"movements", "movements"⟩] := by
      simp [useMovementsMount, hf3]
    rw [hm2]
    simp only [useMovementsCleanup]
    rw [removeSub_append_not_mem _ _ _ hnm]
    have e2 : removeSub ⟨"movements", "movements"⟩
        [(⟨"movements", "movements"⟩ : ToolsSub)] = [] := by
      simp [removeSub]
    rw [e2]
    simp

/-- `C6_realtime_subscription_wiring` evaluated on `sampleW` with an empty
registry: mount registers the two subscriptions and cleanup removes them. -/
theorem C6_realtime_subscription_wiring_witness :
    (useToolsMount ⟨[], [], false⟩ sampleW []).2.2
      = [⟨"tools", "tools"⟩, ⟨"movements", "movements"⟩] ∧
    useToolsCleanup (useToolsMount ⟨[], [], false⟩ sampleW []).2.2 = [] := by
  have h := C6_realtime_subscription_wiring ⟨[], true⟩ ⟨[], [], false⟩
    sampleW []
  exact ⟨by simpa using h.1,
         by simpa using h.2.2.2.2.2.2.2.2.1 (by simp) (by simp)⟩

/-- Claim C1 as stated is false: the write payloads of `createCheckout` are
not a function of its inputs alone.  Two runs with identical inputs against
databases that differ only in the stored available_stock (5 versus 7) issue
different stock writes (3 versus 5): the operation computes the written
value from previously fetched data. -/
theorem C1_counterexample_checkout_not_passthrough :
    ¬ checkoutWritesIndependentOfDB := fun h =>
  absurd (h "d3" "t1" "Taladro" "ana" "patio" none 2 ⟨[], true⟩ ⟨[], true⟩
    sampleDB sampleDB7) (by decide)

/-- Claim C1 (amended): the fetch and auth operations issue no writes;
`addTool`, `updateTool` and `deleteTool` issue exactly one write whose
payload depends only on the operation's inputs and the clock; but
`createCheckout` and `createCheckin` compute new values from previously
fetched data before writing: `createCheckout` writes the fetched
available_stock minus the requested quantity, and `createCheckin` writes
the fetched available_stock plus the return quantity and builds its
inserted movement from the fetched original movement. -/
theorem C1_passthrough_except_stock_arithmetic (cfg : Bool) (now toolId
    toolName userName area movementId email password : String)
    (notes : Option String) (q rq : Int) (t : ToolInput) (p : ToolPatch)
    (auth : String → String → AuthRes) (authOut : Option Err) (s : MovState)
    (st : ToolsState) (w : W) :
    (writesOf (fetchTools st w).2.tr = writesOf w.tr ∧
     writesOf (fetchToolsInUse st w).2.tr = writesOf w.tr ∧
     writesOf (fetchMovements cfg s w).2.tr = writesOf w.tr ∧
     writesOf (signIn cfg auth email password w).2.tr = writesOf w.tr ∧
     writesOf (signOut cfg authOut w).2.tr = writesOf w.tr) ∧
    (writesOf (addTool now t st w).2.2.tr
       = writesOf w.tr ++ [.insTool (addToolPayload t)] ∧
     writesOf (updateTool now toolId p st w).2.2.tr
       = writesOf w.tr ++ [.updTool toolId p now] ∧
     writesOf (deleteTool toolId st w).2.2.tr
       = writesOf w.tr ++ [.delTool toolId]) ∧
    (∀ t0, toolById w.db toolId = some t0 → ¬ t0.available_stock < q →
      w.fl w.ix = false → w.fl (w.ix + 1) = false →
      writesOf (createCheckout true now toolId toolName q userName area
          notes s w).2.2.tr
        = writesOf w.tr
          ++ [.insMovement (checkoutPayload now toolId toolName q userName
                area notes),
              .updToolStock toolId (t0.available_stock - q)]) ∧
    (∀ m t0, movementById w.db movementId = some m →
      toolById w.db m.tool_id = some t0 →
      w.fl w.ix = false → w.fl (w.ix + 2) = false →
      w.fl (w.ix + 3) = false →
      writesOf (createCheckin true now movementId rq userName notes s
          w).2.2.tr
        = writesOf w.tr
          ++ [.updMovementReturned movementId now,
              .insMovement (checkinPayload now m rq userName notes),
              .updToolStock m.tool_id (t0.available_stock + rq)]) := by
  refine ⟨⟨?_, ?_, ?_, ?_, ?_⟩, ⟨?_, ?_, ?_⟩, ?_, ?_⟩
  · cases hf : w.fl w.ix <;>
      simp [fetchTools, callSelTools, nextFails, bump, writesOf,
        Call.isWrite, hf]
  · cases hf : w.fl w.ix <;>
      simp [fetchToolsInUse, callSelActiveMovements, nextFails, bump,
        writesOf, Call.isWrite, hf]
  · cases cfg with
    | false => simp [fetchMovements, writesOf]
    | true =>
      cases hf : w.fl w.ix <;>
        simp [fetchMovements, callSelMovementsAll, nextFails, bump, writesOf,
          Call.isWrite, hf]
  · cases cfg <;> simp [signIn, writesOf, Call.isWrite]
  · cases cfg <;> simp [signOut, writesOf, Call.isWrite]
  · cases hf : w.fl w.ix with
    | true => simp [addTool, callInsTool, nextFails, bump, writesOf,
        Call.isWrite, hf]
    | false =>
      cases hf1 : w.fl (w.ix + 1) <;>
        simp [addTool, callInsTool, fetchTools, callSelTools, nextFails,
          bump, writesOf, Call.isWrite, hf, hf1]
  · cases hf : w.fl w.ix with
    | true => simp [updateTool, callUpdTool, nextFails, bump, writesOf,
        Call.isWrite, hf]
    | false =>
      cases hlk : toolById w.db toolId with
      | none => simp [updateTool, callUpdTool, nextFails, bump, writesOf,
          Call.isWrite, hf, hlk]
      | some t0 =>
        cases hf1 : w.fl (w.ix + 1) <;>
          simp [updateTool, callUpdTool, fetchTools, callSelTools, nextFails,
            bump, writesOf, Call.isWrite, hf, hf1, hlk]
  · cases hf : w.fl w.ix with
    | true => simp [deleteTool, callDelTool, nextFails, bump, writesOf,
        Call.isWrite, hf]
    | false =>
      cases hf1 : w.fl (w.ix + 1) <;>
        simp [deleteTool, callDelTool, fetchTools, callSelTools, nextFails,
          bump, writesOf, Call.isWrite, hf, hf1]
  · intro t0 hlk hge hf0 hf1
    have hlk' : lookupBy Tool.id w.db.tools toolId = some t0 := by
      simpa [toolById] using hlk
    by_cases hf2 : w.fl (w.ix + 2) = true <;>
      by_cases hf3 : w.fl (w.ix + 3) = true <;>
        simp [createCheckout, callSelToolStock, callInsMovement,
          callUpdToolStock, fetchMovements, callSelMovementsAll, toolById,
          nextFails, bump, writesOf, Call.isWrite, hlk', hge, hf0, hf1, hf2,
          hf3]
  · intro m t0 hm ht hf0 hf2 hf3
    have hm' : lookupBy Movement.id w.db.movements movementId = some m := by
      simpa [movementById] using hm
    have ht' : lookupBy Tool.id w.db.tools m.tool_id = some t0 := by
      simpa [toolById] using ht
    by_cases hf1 : w.fl (w.ix + 1) = true <;>
      by_cases hf4 : w.fl (w.ix + 4) = true <;>
        by_cases hf5 : w.fl (w.ix + 5) = true <;>
          simp [createCheckin, callSelMovement, callUpdMovementReturned,
            callInsMovement, callSelToolStock, callUpdToolStock,
            fetchMovements, callSelMovementsAll, movementById, toolById,
            nextFails, bump, writesOf, Call.isWrite, hm', ht', hf0, hf1,
            hf2, hf3, hf4, hf5]

/-- `C1_passthrough_except_stock_arithmetic` evaluated on `sampleW`: the
checkout against a fetched stock of 5 writes 5 - 2. -/
theorem C1_passthrough_except_stock_arithmetic_witness :
    writesOf (createCheckout true "d3" "t1" "Taladro" 2 "ana" "patio" none
        ⟨[], true⟩ sampleW).2.2.tr
      = [.insMovement (checkoutPayload "d3" "t1" "Taladro" 2 "ana" "patio"
            none),
         .updToolStock "t1" (sampleTool.available_stock - 2)] := by
  have h := (C1_passthrough_except_stock_arithmetic true "d3" "t1" "Taladro"
      "ana" "patio" "m1" "e" "pw" none 2 1 ⟨"S", 1, 1⟩ {} (fun _ _ => ⟨none,
      none⟩) none ⟨[], true⟩ ⟨[], [], false⟩ sampleW).2.2.1 sampleTool
      (by decide) (by decide) (by decide) (by decide)
  simpa using h

end App
